import Mathlib

/-!
Verification development for the async email-verification engine
(`src/execution/async_verifier.py`).

The Python source is shallowly embedded as pure Lean functions:

* network effects (DNS queries, SMTP dialogues) are passed in as oracle
  functions bundled in an `Env`;
* the engine's mutable caches (`MXResolver._cache`, `_catch_all_cache`)
  become explicit state (`MXResolver`, `EngineState`) threaded through
  each operation, with Python `dict`s modelled as association lists with
  replace-on-insert semantics;
* every operation additionally reports how many DNS queries and SMTP
  probes it performed, so that claims of the form "makes no DNS query"
  or "without probing the actual address" are statable;
* the semaphore discipline of `_verify_with_semaphores` is modelled as a
  small-step transition system over per-task phases.
-/

namespace AsyncVerifier

/-- Association-list lookup: the model of Python `dict` read (`d[k]` /
`k in d`). Returns the value stored for `k`, if any. -/
def lookupA {α : Type} : List (String × α) → String → Option α
  | [], _ => none
  | (k', v) :: t, k => if k' = k then some v else lookupA t k

/-- Association-list insert with replacement: the model of Python
`d[k] = v` (later writes overwrite earlier ones for the same key). -/
def insertA {α : Type} : List (String × α) → String → α → List (String × α)
  | [], k, v => [(k, v)]
  | (k', v') :: t, k, v =>
    if k' = k then (k', v) :: t else (k', v') :: insertA t k v

/-- Mirror of the Python dataclass `VerificationResult` with its field
defaults (`valid=None`, `confidence="high"`, `method="smtp"`,
`attempts=1`, ...). -/
structure VerificationResult where
  email : String
  valid : Option Bool := none
  code : Option Nat := none
  message : String := ""
  error : Option String := none
  catch_all : Bool := false
  greylist : Bool := false
  confidence : String := "high"
  method : String := "smtp"
  attempts : Nat := 1
  deriving DecidableEq, Repr

/-- The default-constructed result, used only to totalise the dict
lookup in `verify_batch` (Python would raise `KeyError`; the theorems
show the lookup always succeeds in the situations the spec covers). -/
def emptyResult : VerificationResult := { email := "" }

/-- Observable outcome of one low-level SMTP dialogue attempted by
`_smtp_verify`: either the RCPT step returned `(code, message)`, or one
of the three exception classes handled at lines 219-230 of the source
was raised somewhere in the dialogue (`asyncio.TimeoutError`,
`aiosmtplib.SMTPException`, any other `Exception`). -/
inductive SMTPOutcome where
  | response (code : Nat) (message : String)
  | timeoutErr
  | smtpExc (message : String)
  | otherExc (message : String)
  deriving DecidableEq, Repr

/-- Result of one DNS MX query as seen by `MXResolver.resolve`: a
record list, an `aiodns.error.DNSError`, or any other exception. -/
inductive DNSAnswer where
  | records (recs : List (Nat × String))
  | dnsError
  | otherError
  deriving DecidableEq, Repr

/-- Insertion into a list sorted by MX priority (first component). -/
def insertSorted (x : Nat × String) : List (Nat × String) → List (Nat × String)
  | [] => [x]
  | y :: ys => if x.1 < y.1 then x :: y :: ys else y :: insertSorted x ys

/-- Model of `sorted(mx_records, key=lambda x: x.priority)`: sort MX
records ascending by priority (tie order is unspecified by the spec). -/
def sortByPriority : List (Nat × String) → List (Nat × String)
  | [] => []
  | x :: xs => insertSorted x (sortByPriority xs)

/-- Model of Python `str.rstrip('.')`: drop trailing dots. -/
def rstripDots (s : String) : String :=
  String.mk ((s.toList.reverse.dropWhile (fun c => c = '.')).reverse)

/-- Environment of oracles standing for the network and the clock:
`dns domain` is what one MX query for `domain` observes, `probe email
host attempt` is what the SMTP dialogue for `email` against `host`
observes on the given (0-based) attempt, `randEmail domain` is the
synthetic address `_generate_random_email` produces, and `now` is the
current time in seconds. -/
structure Env where
  dns : String → DNSAnswer
  probe : String → String → Nat → SMTPOutcome
  randEmail : String → String
  now : Nat

/-- Constructor arguments of `AsyncEmailVerifier.__init__` that the
embedded operations consult, with the source's default values. -/
structure EngineConfig where
  max_concurrent : Nat := 50
  max_per_domain : Nat := 5
  greylist_retry_delay : Nat := 45
  greylist_max_retries : Nat := 2
  deriving DecidableEq, Repr

/-- State of `MXResolver`: its cache (domain to (hosts, cached-at
timestamp)) and its TTL, default 3600 seconds. -/
structure MXResolver where
  cache : List (String × (List String × Nat)) := []
  ttl : Nat := 3600
  deriving DecidableEq, Repr

/-- The cache-miss path of `MXResolver.resolve`: query DNS, sort by
priority, strip trailing dots, cache. A `DNSError` is cached as an
empty host list; any other exception returns an empty list without
caching. The third component counts DNS queries performed (here 1). -/
def resolveFresh (dns : String → DNSAnswer) (now : Nat) (r : MXResolver)
    (domain : String) : List String × MXResolver × Nat :=
  match dns domain with
  | .records recs =>
    let hosts := (sortByPriority recs).map (fun p => rstripDots p.2)
    (hosts, { r with cache := insertA r.cache domain (hosts, now) }, 1)
  | .dnsError => ([], { r with cache := insertA r.cache domain ([], now) }, 1)
  | .otherError => ([], r, 1)

/-- Embedding of `MXResolver.resolve`: serve from cache when the entry
is younger than the TTL, otherwise resolve fresh. Returns (hosts, new
resolver state, number of DNS queries performed). -/
def MXResolver.resolve (dns : String → DNSAnswer) (now : Nat) (r : MXResolver)
    (domain : String) : List String × MXResolver × Nat :=
  match lookupA r.cache domain with
  | some (records, cachedAt) =>
    if now - cachedAt < r.ttl then (records, r, 0)
    else resolveFresh dns now r domain
  | none => resolveFresh dns now r domain

/-- Engine caches shared by one `AsyncEmailVerifier` instance. -/
structure EngineState where
  mx : MXResolver := {}
  catch_all_cache : List (String × Bool) := []
  deriving DecidableEq, Repr

/-- Model of Python `str.split("@")` on the underlying character
list: split at every `'@'`, so a string with no `'@'` yields a
one-element list and `k` at-signs yield `k + 1` parts. -/
def splitAtSign : List Char → List (List Char)
  | [] => [[]]
  | ch :: rest =>
    let r := splitAtSign rest
    if ch = '@' then [] :: r
    else
      match r with
      | [] => [[ch]]
      | h :: t => (ch :: h) :: t

/-- Embedding of `AsyncEmailVerifier._get_domain`:
`email.split("@")[1].lower() if "@" in email else ""`. A split with
fewer than two parts means the address contains no `'@'`. -/
def get_domain (email : String) : String :=
  match splitAtSign email.data with
  | _ :: second :: _ => String.mk (second.map Char.toLower)
  | _ => ""

/-- Embedding of `AsyncEmailVerifier._smtp_verify`, as a function of
the observed dialogue outcome. Classification of the RCPT response
code follows lines 201-211; each handled exception class is converted
to a result value (lines 219-230), so the function is total: no
failure escapes to the caller. -/
def smtp_verify (email : String) (o : SMTPOutcome) : VerificationResult :=
  match o with
  | .response c m =>
    let r : VerificationResult := { email := email, code := some c, message := m }
    if c = 250 then
      { r with valid := some true }
    else if c = 450 ∨ c = 451 then
      { r with valid := none, greylist := true, confidence := "unknown" }
    else if c = 550 ∨ c = 551 ∨ c = 552 ∨ c = 553 ∨ c = 554 then
      { r with valid := some false }
    else
      { r with valid := none, confidence := "unknown" }
  | .timeoutErr =>
    { email := email, error := some "timeout", valid := none, confidence := "unknown" }
  | .smtpExc m =>
    { email := email, error := some ("smtp_error: " ++ m), valid := none,
      confidence := "unknown" }
  | .otherExc m =>
    { email := email, error := some ("error: " ++ m), valid := none,
      confidence := "unknown" }

/-- Whether a dialogue outcome is a greylist (temporary-rejection)
response, i.e. an RCPT code of 450 or 451. -/
def isGreylistOutcome : SMTPOutcome → Bool
  | .response c _ => c == 450 || c == 451
  | _ => false

/-- Embedding of `AsyncEmailVerifier.is_catch_all`: memoised per
domain; on a miss, resolve MX hosts (no hosts means not catch-all),
otherwise probe one synthetic random address against the best-priority
host, and the domain is catch-all exactly when that probe reports
`valid is True`. Returns (answer, new state, DNS queries, probes). -/
def is_catch_all (env : Env) (st : EngineState) (domain : String) :
    Bool × EngineState × Nat × Nat :=
  match lookupA st.catch_all_cache domain with
  | some b => (b, st, 0, 0)
  | none =>
    let res := MXResolver.resolve env.dns env.now st.mx domain
    let st1 : EngineState := { st with mx := res.2.1 }
    match res.1 with
    | [] =>
      (false, { st1 with catch_all_cache := insertA st1.catch_all_cache domain false },
        res.2.2, 0)
    | h :: _ =>
      let test := env.randEmail domain
      let r := smtp_verify test (env.probe test h 0)
      let b := r.valid == some true
      (b, { st1 with catch_all_cache := insertA st1.catch_all_cache domain b },
        res.2.2, 1)

/-- Embedding of the `for attempt in range(max_retries + 1)` loop of
`_verify_with_greylist_retry`, recursing on the number of remaining
retries. Each iteration probes once, stamps `attempts`, returns any
non-greylist result immediately, and after the last greylisted attempt
stamps `error = "greylist_timeout"`. The second component counts
probes performed. -/
def greylistLoop (env : Env) (email host : String) : Nat → Nat → VerificationResult × Nat
  | attempt, 0 =>
    let r := { smtp_verify email (env.probe email host attempt) with attempts := attempt + 1 }
    if r.greylist then ({ r with error := some "greylist_timeout" }, 1) else (r, 1)
  | attempt, rem + 1 =>
    let r := { smtp_verify email (env.probe email host attempt) with attempts := attempt + 1 }
    if r.greylist then
      let next := greylistLoop env email host (attempt + 1) rem
      (next.1, next.2 + 1)
    else (r, 1)

/-- Embedding of `AsyncEmailVerifier._verify_with_greylist_retry`. -/
def verify_with_greylist_retry (cfg : EngineConfig) (env : Env) (email host : String) :
    VerificationResult × Nat :=
  greylistLoop env email host 0 cfg.greylist_max_retries

/-- Embedding of `AsyncEmailVerifier.verify_single`: malformed address
check, MX resolution, catch-all short-circuit, then greylist-retrying
probe. Returns (result, new state, DNS queries, probes). -/
def verify_single (cfg : EngineConfig) (env : Env) (st : EngineState) (email : String) :
    VerificationResult × EngineState × Nat × Nat :=
  let domain := get_domain email
  if domain = "" then
    ({ email := email, valid := some false, error := some "invalid_format" }, st, 0, 0)
  else
    let res := MXResolver.resolve env.dns env.now st.mx domain
    let st1 : EngineState := { st with mx := res.2.1 }
    match res.1 with
    | [] =>
      ({ email := email, valid := some false, error := some "no_mx_records" },
        st1, res.2.2, 0)
    | mx_host :: _ =>
      let ica := is_catch_all env st1 domain
      if ica.1 then
        ({ email := email, valid := none, catch_all := true, confidence := "low",
           message := "Domain is catch-all, cannot verify individual addresses" },
          ica.2.1, res.2.2 + ica.2.2.1, ica.2.2.2)
      else
        let vr := verify_with_greylist_retry cfg env email mx_host
        (vr.1, ica.2.1, res.2.2 + ica.2.2.1, ica.2.2.2 + vr.2)

/-- The dictionary `{r.email: r for r in results}` built by
`verify_batch` from the task results in completion order. -/
def dictOfResults (rs : List VerificationResult) : List (String × VerificationResult) :=
  rs.foldl (fun d r => insertA d r.email r) []

/-- Embedding of the result-collection and reordering logic of
`AsyncEmailVerifier.verify_batch`: `taskRes j` is the result produced
by the task spawned for the `j`-th input address, `completionOrder` is
the order in which `asyncio.as_completed` yields those tasks, and the
returned list is the input-order remap through the email-keyed dict. -/
def verify_batch (emails : List String) (taskRes : Nat → VerificationResult)
    (completionOrder : List Nat) : List VerificationResult :=
  if emails = [] then []
  else
    let results := completionOrder.map taskRes
    let d := dictOfResults results
    emails.map (fun e => (lookupA d e).getD emptyResult)

/-- Phase of one task of `verify_batch` with respect to the two
semaphores of `_verify_with_semaphores`: not yet started; holding the
global semaphore; holding both the global and its domain semaphore
(the phase in which `verify_single` runs); having released the domain
semaphore on exit from the inner `async with` but still holding the
global one; and finished. -/
inductive Phase where
  | idle
  | holdingGlobal
  | holdingBoth
  | releasedDomain
  | done
  deriving DecidableEq, Repr

/-- Whether a task in this phase holds the global semaphore. -/
def holdsGlobal : Phase → Bool
  | .holdingGlobal => true
  | .holdingBoth => true
  | .releasedDomain => true
  | _ => false

/-- Whether a task in this phase holds its domain semaphore. -/
def holdsDomain : Phase → Bool
  | .holdingBoth => true
  | _ => false

/-- Number of tasks whose phase satisfies the predicate. -/
def countIf (p : Phase → Bool) : List Phase → Nat
  | [] => 0
  | x :: xs => (if p x then 1 else 0) + countIf p xs

/-- Number of tasks currently holding the global semaphore. -/
def globalCount (ph : List Phase) : Nat := countIf holdsGlobal ph

/-- Number of in-flight tasks against domain `d`: tasks whose address
has domain `d` (the key under which `_domain_semaphores` is indexed)
and which currently hold their domain semaphore. `ds` lists each
task's domain, `ph` each task's phase, positionally. -/
def domainCount (d : String) : List String → List Phase → Nat
  | dd :: ds, q :: ph =>
    (if dd = d ∧ holdsDomain q = true then 1 else 0) + domainCount d ds ph
  | _, _ => 0

/-- Small-step semantics of the semaphore discipline of
`_verify_with_semaphores` for one batch: task `i` (whose address has
domain `ds[i]`) may acquire the global semaphore only while fewer than
`max_concurrent` tasks hold it, may then acquire its domain semaphore
only while fewer than `max_per_domain` tasks of the same domain hold
theirs, and on completion releases the domain semaphore and then the
global one, mirroring the nesting of the two `async with` blocks. -/
inductive SemStep (cfg : EngineConfig) (ds : List String) :
    List Phase → List Phase → Prop where
  | acquireGlobal {ph : List Phase} (i : Nat)
      (hph : ph.getD i Phase.done = Phase.idle)
      (hcap : globalCount ph < cfg.max_concurrent) :
      SemStep cfg ds ph (ph.set i Phase.holdingGlobal)
  | acquireDomain {ph : List Phase} (i : Nat)
      (hph : ph.getD i Phase.done = Phase.holdingGlobal)
      (hcap : domainCount (ds.getD i "") ds ph < cfg.max_per_domain) :
      SemStep cfg ds ph (ph.set i Phase.holdingBoth)
  | releaseDomain {ph : List Phase} (i : Nat)
      (hph : ph.getD i Phase.done = Phase.holdingBoth) :
      SemStep cfg ds ph (ph.set i Phase.releasedDomain)
  | releaseGlobal {ph : List Phase} (i : Nat)
      (hph : ph.getD i Phase.done = Phase.releasedDomain) :
      SemStep cfg ds ph (ph.set i Phase.done)

/-- States reachable during one batch: all tasks start idle, and the
scheduler interleaves semaphore steps in any order the step relation
allows. -/
inductive SemReachable (cfg : EngineConfig) (ds : List String) : List Phase → Prop where
  | init : SemReachable cfg ds (List.replicate ds.length Phase.idle)
  | step {ph ph' : List Phase} :
      SemReachable cfg ds ph → SemStep cfg ds ph ph' → SemReachable cfg ds ph'

/-- Deterministic test environment: every probe is greylisted (code
451) on attempt 0 and accepted (code 250) on every later attempt. -/
def envGreylistOnce : Env where
  dns := fun _ => .dnsError
  probe := fun _ _ a => if a = 0 then .response 451 "greylisted" else .response 250 "ok"
  randEmail := fun d => "synthetic@" ++ d
  now := 0

/-- Test environment for evaluation witnesses: DNS always fails with a
`DNSError`, every probe times out. -/
def envTest : Env where
  dns := fun _ => .dnsError
  probe := fun _ _ _ => .timeoutErr
  randEmail := fun d => "synthetic@" ++ d
  now := 0

/-- Test environment where every probe is perpetually greylisted. -/
def envGreyForever : Env where
  dns := fun _ => .dnsError
  probe := fun _ _ _ => .response 450 "grey"
  randEmail := fun d => "synthetic@" ++ d
  now := 0

section Lemmas

lemma lookupA_insertA_self {α : Type} (l : List (String × α)) (k : String) (v : α) :
    lookupA (insertA l k v) k = some v := by
  induction l with
  | nil => simp [insertA, lookupA]
  | cons h t ih =>
    obtain ⟨k', v'⟩ := h
    by_cases hk : k' = k
    · simp [insertA, hk, lookupA]
    · simp [insertA, hk, lookupA, ih]

lemma smtp_verify_greylist (email : String) (o : SMTPOutcome) :
    (smtp_verify email o).greylist = isGreylistOutcome o := by
  cases o with
  | response c m =>
    simp only [smtp_verify, isGreylistOutcome]
    split_ifs with h1 h2 h3 <;> simp_all
  | timeoutErr => rfl
  | smtpExc m => rfl
  | otherExc m => rfl

lemma greylistLoop_stop (env : Env) (email host : String) (att rem : Nat)
    (h : isGreylistOutcome (env.probe email host att) = false) :
    greylistLoop env email host att rem =
      ({ smtp_verify email (env.probe email host att) with attempts := att + 1 }, 1) := by
  rw [← smtp_verify_greylist email (env.probe email host att)] at h
  cases rem with
  | zero => simp [greylistLoop, h]
  | succ k => simp [greylistLoop, h]

lemma greylistLoop_base_grey (env : Env) (email host : String) (att : Nat)
    (h : isGreylistOutcome (env.probe email host att) = true) :
    greylistLoop env email host att 0 =
      ({ smtp_verify email (env.probe email host att) with
          attempts := att + 1
          error := some "greylist_timeout" }, 1) := by
  rw [← smtp_verify_greylist email (env.probe email host att)] at h
  simp [greylistLoop, h]

lemma greylistLoop_step_grey (env : Env) (email host : String) (att rem : Nat)
    (h : isGreylistOutcome (env.probe email host att) = true) :
    greylistLoop env email host att (rem + 1) =
      ((greylistLoop env email host (att + 1) rem).1,
       (greylistLoop env email host (att + 1) rem).2 + 1) := by
  rw [← smtp_verify_greylist email (env.probe email host att)] at h
  simp [greylistLoop, h]

lemma greylistLoop_all_grey (env : Env) (email host : String) (rem : Nat) :
    ∀ att, (∀ a, isGreylistOutcome (env.probe email host a) = true) →
      (greylistLoop env email host att rem).1.error = some "greylist_timeout" ∧
      (greylistLoop env email host att rem).1.attempts = att + rem + 1 ∧
      (greylistLoop env email host att rem).2 = rem + 1 := by
  induction rem with
  | zero =>
    intro att h
    rw [greylistLoop_base_grey env email host att (h att)]
    exact ⟨rfl, rfl, rfl⟩
  | succ k ih =>
    intro att h
    rw [greylistLoop_step_grey env email host att k (h att)]
    obtain ⟨e1, a1, c1⟩ := ih (att + 1) h
    refine ⟨e1, ?_, ?_⟩
    · rw [a1]; omega
    · rw [c1]

lemma greylistLoop_first_clean (env : Env) (email host : String) :
    ∀ (a att rem : Nat), a ≤ rem →
      (∀ b, b < a → isGreylistOutcome (env.probe email host (att + b)) = true) →
      isGreylistOutcome (env.probe email host (att + a)) = false →
      greylistLoop env email host att rem =
        ({ smtp_verify email (env.probe email host (att + a)) with attempts := att + a + 1 },
          a + 1) := by
  intro a
  induction a with
  | zero =>
    intro att rem _ _ hclean
    exact greylistLoop_stop env email host att rem hclean
  | succ k ih =>
    intro att rem hle hgrey hclean
    obtain ⟨rem', rfl⟩ : ∃ r, rem = r + 1 := ⟨rem - 1, by omega⟩
    have hg0 : isGreylistOutcome (env.probe email host att) = true := by
      have := hgrey 0 (by omega)
      simpa using this
    rw [greylistLoop_step_grey env email host att rem' hg0]
    have harr : att + 1 + k = att + (k + 1) := by omega
    have hrec := ih (att + 1) rem' (by omega)
      (fun b hb => by
        have hb1 := hgrey (b + 1) (by omega)
        have harr2 : att + (b + 1) = att + 1 + b := by omega
        rwa [harr2] at hb1)
      (by rwa [harr])
    rw [hrec, harr]

lemma lookupA_insertA {α : Type} (l : List (String × α)) (k k' : String) (v : α) :
    lookupA (insertA l k v) k' = if k = k' then some v else lookupA l k' := by
  induction l with
  | nil => simp [insertA, lookupA]
  | cons hd t ih =>
    obtain ⟨k0, v0⟩ := hd
    by_cases h0 : k0 = k
    · subst h0
      by_cases h1 : k0 = k'
      · subst h1
        simp [insertA, lookupA]
      · simp [insertA, lookupA, h1]
    · by_cases h1 : k0 = k'
      · subst h1
        have h2 : ¬ k = k0 := fun hh => h0 hh.symm
        simp [insertA, lookupA, h0, h2]
      · simp [insertA, lookupA, h0, h1, ih]

lemma lookupA_dictOfResults_aux (f : String → VerificationResult) :
    ∀ (rs : List VerificationResult) (d : List (String × VerificationResult)) (k : String),
      (∀ r ∈ rs, r = f r.email) →
      lookupA (rs.foldl (fun d r => insertA d r.email r) d) k =
        if k ∈ rs.map (fun r => r.email) then some (f k) else lookupA d k := by
  intro rs
  induction rs with
  | nil =>
    intro d k _
    simp
  | cons r rs ih =>
    intro d k hco
    have hr : r = f r.email := hco r (by simp)
    have hco' : ∀ x ∈ rs, x = f x.email := fun x hx => hco x (by simp [hx])
    simp only [List.foldl_cons]
    rw [ih (insertA d r.email r) k hco']
    by_cases hk : k ∈ rs.map (fun r => r.email)
    · simp [hk]
    · simp only [hk, if_false, List.map_cons, List.mem_cons]
      rw [lookupA_insertA]
      by_cases he : r.email = k
      · have hfk : f k = r := by rw [← he, ← hr]
        simp [he, hfk]
      · have he' : ¬ k = r.email := fun hh => he hh.symm
        simp [he, he', hk]

lemma map_getD_range {α : Type} (l : List α) (d : α) :
    (List.range l.length).map (fun j => l.getD j d) = l := by
  induction l with
  | nil => simp
  | cons a t ih =>
    rw [List.length_cons, List.range_succ_eq_map, List.map_cons, List.map_map]
    have h1 : (a :: t).getD 0 d = a := rfl
    have h2 : ((fun j => (a :: t).getD j d) ∘ Nat.succ) = fun j => t.getD j d := by
      funext j
      rfl
    rw [h1, h2, ih]

lemma lt_length_of_getD (ph : List Phase) (i : Nat) (v : Phase)
    (h : ph.getD i Phase.done = v) (hv : ¬ v = Phase.done) : i < ph.length := by
  by_contra hge
  rw [List.getD_eq_default] at h
  · exact hv h.symm
  · omega

lemma countIf_set (p : Phase → Bool) :
    ∀ (l : List Phase) (i : Nat) (v : Phase), i < l.length →
      countIf p (l.set i v) + (if p (l.getD i Phase.done) then 1 else 0) =
        countIf p l + (if p v then 1 else 0) := by
  intro l
  induction l with
  | nil =>
    intro i v h
    simp at h
  | cons x xs ih =>
    intro i v h
    cases i with
    | zero =>
      have hset : (x :: xs).set 0 v = v :: xs := rfl
      have hg : (x :: xs).getD 0 Phase.done = x := rfl
      rw [hset, hg]
      simp only [countIf]
      omega
    | succ j =>
      have hj : j < xs.length := by simpa using h
      have hrec := ih j v hj
      have hset : (x :: xs).set (j + 1) v = x :: xs.set j v := rfl
      have hg : (x :: xs).getD (j + 1) Phase.done = xs.getD j Phase.done := rfl
      rw [hset, hg]
      simp only [countIf]
      omega

lemma domainCount_set (d : String) :
    ∀ (ds : List String) (ph : List Phase) (i : Nat) (v : Phase),
      i < ds.length → i < ph.length →
      domainCount d ds (ph.set i v) +
        (if ds.getD i "" = d ∧ holdsDomain (ph.getD i Phase.done) = true then 1 else 0) =
      domainCount d ds ph +
        (if ds.getD i "" = d ∧ holdsDomain v = true then 1 else 0) := by
  intro ds
  induction ds with
  | nil =>
    intro ph i v h1 h2
    simp at h1
  | cons dd ds ih =>
    intro ph i v h1 h2
    cases ph with
    | nil => simp at h2
    | cons q ph =>
      cases i with
      | zero =>
        have hset : (q :: ph).set 0 v = v :: ph := rfl
        have hg : (q :: ph).getD 0 Phase.done = q := rfl
        have hd : (dd :: ds).getD 0 "" = dd := rfl
        rw [hset, hg, hd]
        simp only [domainCount]
        omega
      | succ j =>
        have hj1 : j < ds.length := by simpa using h1
        have hj2 : j < ph.length := by simpa using h2
        have hrec := ih ph j v hj1 hj2
        have hset : (q :: ph).set (j + 1) v = q :: ph.set j v := rfl
        have hg : (q :: ph).getD (j + 1) Phase.done = ph.getD j Phase.done := rfl
        have hd : (dd :: ds).getD (j + 1) "" = ds.getD j "" := rfl
        rw [hset, hg, hd]
        simp only [domainCount]
        omega

lemma countIf_replicate_idle (p : Phase → Bool) (n : Nat) (hp : p Phase.idle = false) :
    countIf p (List.replicate n Phase.idle) = 0 := by
  induction n with
  | zero => rfl
  | succ k ih => simp [List.replicate, countIf, hp, ih]

lemma domainCount_replicate_idle (d : String) (ds : List String) :
    domainCount d ds (List.replicate ds.length Phase.idle) = 0 := by
  induction ds with
  | nil => rfl
  | cons dd ds ih => simp [List.replicate, domainCount, holdsDomain, ih]

lemma semReachable_length (cfg : EngineConfig) (ds : List String) (ph : List Phase)
    (h : SemReachable cfg ds ph) : ph.length = ds.length := by
  induction h with
  | init => exact List.length_replicate _ _
  | step hreach hstep ih =>
    cases hstep <;> rw [List.length_set] <;> exact ih

end Lemmas

section Claims

/-- C4: for every RCPT response code, `_smtp_verify` classifies 250 as
deliverable (`valid = some true`), 450/451 as indeterminate with the
greylist flag set, 550-554 as undeliverable (`valid = some false`),
and every other code as indeterminate with unknown confidence. -/
theorem C4_response_code_classification (email m : String) (c : Nat) :
    (c = 250 → (smtp_verify email (.response c m)).valid = some true) ∧
    ((c = 450 ∨ c = 451) →
      (smtp_verify email (.response c m)).valid = none ∧
      (smtp_verify email (.response c m)).greylist = true) ∧
    ((550 ≤ c ∧ c ≤ 554) → (smtp_verify email (.response c m)).valid = some false) ∧
    ((c ≠ 250 ∧ ¬(c = 450 ∨ c = 451) ∧ ¬(550 ≤ c ∧ c ≤ 554)) →
      (smtp_verify email (.response c m)).valid = none ∧
      (smtp_verify email (.response c m)).confidence = "unknown") := by
  refine ⟨?_, ?_, ?_, ?_⟩ <;> intro h <;> simp only [smtp_verify] <;> split_ifs <;>
    first
      | rfl
      | exact ⟨rfl, rfl⟩
      | omega

theorem C4_response_code_classification_witness :
    (smtp_verify "alice@example.com" (.response 250 "ok")).valid = some true :=
  (C4_response_code_classification "alice@example.com" "ok" 250).1 rfl

/-- C2 counterexample: a probe greylisted exactly once (code 451 on
attempt 0) and accepted (code 250) on the immediate retry ends
deliverable with `attempts = 2`, but the final result's greylist flag
is `false`, not `true` as the claim states: the flag is taken from the
final probe attempt only. -/
theorem C2_counterexample :
    (verify_with_greylist_retry {} envGreylistOnce "bob@example.com" "mx.example.com").1.valid
      = some true ∧
    (verify_with_greylist_retry {} envGreylistOnce "bob@example.com" "mx.example.com").1.attempts
      = 2 ∧
    ¬((verify_with_greylist_retry {} envGreylistOnce "bob@example.com"
        "mx.example.com").1.greylist = true) := by
  decide

/-- C2 (amended): an address greylisted exactly once (code 450 or 451
on attempt 0) and accepted (code 250) on the immediately following
retry ends with outcome deliverable (`valid = some true`) and
`attempts = 2`, but with `greylist = false` and `error = none`: the
returned result is the final attempt's result, whose greylist flag
reflects only that attempt's response. -/
theorem C2_greylist_then_accept (cfg : EngineConfig) (env : Env) (email host : String)
    (c0 : Nat) (m0 m1 : String)
    (hmax : 1 ≤ cfg.greylist_max_retries)
    (h0 : env.probe email host 0 = .response c0 m0)
    (hc0 : c0 = 450 ∨ c0 = 451)
    (h1 : env.probe email host 1 = .response 250 m1) :
    (verify_with_greylist_retry cfg env email host).1.valid = some true ∧
    (verify_with_greylist_retry cfg env email host).1.greylist = false ∧
    (verify_with_greylist_retry cfg env email host).1.attempts = 2 ∧
    (verify_with_greylist_retry cfg env email host).1.error = none := by
  obtain ⟨k, hk⟩ : ∃ k, cfg.greylist_max_retries = k + 1 :=
    ⟨cfg.greylist_max_retries - 1, by omega⟩
  have hgrey0 : isGreylistOutcome (env.probe email host 0) = true := by
    rw [h0]; rcases hc0 with rfl | rfl <;> rfl
  have hclean1 : isGreylistOutcome (env.probe email host 1) = false := by
    rw [h1]; rfl
  unfold verify_with_greylist_retry
  rw [hk, greylistLoop_step_grey env email host 0 k hgrey0]
  have h01 : 0 + 1 = 1 := rfl
  rw [h01, greylistLoop_stop env email host 1 k hclean1, h1]
  refine ⟨rfl, rfl, rfl, rfl⟩

/-- Witness for C2 (amended): the concrete greylist-once environment,
with the hypotheses discharged at attempt codes 451 then 250. -/
theorem C2_greylist_then_accept_witness :
    envGreylistOnce.probe "bob@example.com" "mx.example.com" 0
      = SMTPOutcome.response 451 "greylisted" ∧
    (verify_with_greylist_retry {} envGreylistOnce "bob@example.com" "mx.example.com").1.valid
      = some true ∧
    (verify_with_greylist_retry {} envGreylistOnce "bob@example.com" "mx.example.com").1.attempts
      = 2 :=
  ⟨rfl,
   (C2_greylist_then_accept {} envGreylistOnce "bob@example.com" "mx.example.com" 451
      "greylisted" "ok" (by decide) rfl (Or.inr rfl) rfl).1,
   (C2_greylist_then_accept {} envGreylistOnce "bob@example.com" "mx.example.com" 451
      "greylisted" "ok" (by decide) rfl (Or.inr rfl) rfl).2.2.1⟩

/-- C3: an address whose probe is greylisted (code 450/451) on every
attempt ends with `error = "greylist_timeout"` and `attempts =
1 + greylist_max_retries`; and the first non-greylist probe outcome
terminates the retry loop immediately, so non-greylist outcomes are
never retried: if attempts `0..a-1` are greylisted and attempt `a` is
not, the loop returns that attempt's result with exactly `a + 1`
probes performed. -/
theorem C3_greylist_exhaustion (cfg : EngineConfig) (env : Env) (email host : String) :
    ((∀ a, isGreylistOutcome (env.probe email host a) = true) →
      (verify_with_greylist_retry cfg env email host).1.error = some "greylist_timeout" ∧
      (verify_with_greylist_retry cfg env email host).1.attempts =
        1 + cfg.greylist_max_retries) ∧
    (∀ a, a ≤ cfg.greylist_max_retries →
      (∀ b, b < a → isGreylistOutcome (env.probe email host b) = true) →
      isGreylistOutcome (env.probe email host a) = false →
      verify_with_greylist_retry cfg env email host =
        ({ smtp_verify email (env.probe email host a) with attempts := a + 1 }, a + 1)) := by
  constructor
  · intro h
    obtain ⟨e1, a1, -⟩ :=
      greylistLoop_all_grey env email host cfg.greylist_max_retries 0 h
    unfold verify_with_greylist_retry
    refine ⟨e1, ?_⟩
    rw [a1]
    omega
  · intro a hle hgrey hclean
    have hrec := greylistLoop_first_clean env email host a 0 cfg.greylist_max_retries hle
      (fun b hb => by rw [Nat.zero_add]; exact hgrey b hb)
      (by rw [Nat.zero_add]; exact hclean)
    rw [Nat.zero_add] at hrec
    unfold verify_with_greylist_retry
    exact hrec

/-- Witness for C3: the perpetually greylisted environment, default
configuration (2 retries), giving greylist_timeout after 3 attempts. -/
theorem C3_greylist_exhaustion_witness :
    (verify_with_greylist_retry {} envGreyForever "carol@example.com" "mx.example.com").1.error
      = some "greylist_timeout" ∧
    (verify_with_greylist_retry {} envGreyForever "carol@example.com" "mx.example.com").1.attempts
      = 3 :=
  ⟨((C3_greylist_exhaustion {} envGreyForever "carol@example.com" "mx.example.com").1
      (fun _ => rfl)).1,
   ((C3_greylist_exhaustion {} envGreyForever "carol@example.com" "mx.example.com").1
      (fun _ => rfl)).2⟩

/-- C5 counterexample: a generic connection exception (for example
"connection refused", an `OSError`, caught by the bare `except
Exception` handler) is converted to outcome indeterminate with unknown
confidence, but its error kind is the string "error: connection
refused", which is none of `timeout`, `connection_error`,
`protocol_error` as the claim requires. -/
theorem C5_counterexample :
    (smtp_verify "a@b.com" (.otherExc "connection refused")).valid = none ∧
    (smtp_verify "a@b.com" (.otherExc "connection refused")).confidence = "unknown" ∧
    ¬((smtp_verify "a@b.com" (.otherExc "connection refused")).error = some "timeout" ∨
      (smtp_verify "a@b.com" (.otherExc "connection refused")).error = some "connection_error" ∨
      (smtp_verify "a@b.com" (.otherExc "connection refused")).error = some "protocol_error") := by
  refine ⟨rfl, rfl, ?_⟩
  intro h
  rcases h with h | h | h <;> simp [smtp_verify] at h

/-- C5 (amended): every exception raised inside `_smtp_verify`
(timeout, SMTP protocol exception, or any other exception such as a
connection failure) is caught and converted into a result value with
outcome indeterminate (`valid = none`) and `confidence = "unknown"`;
the error kind is `"timeout"` for timeouts, `"smtp_error: <detail>"`
for SMTP protocol exceptions, and `"error: <detail>"` for anything
else. The probe is a total function of the observed dialogue outcome,
so no exception propagates to the caller. -/
theorem C5_exception_conversion (email : String) (o : SMTPOutcome)
    (h : ∀ c m, o ≠ SMTPOutcome.response c m) :
    (smtp_verify email o).valid = none ∧
    (smtp_verify email o).confidence = "unknown" ∧
    (smtp_verify email o).error =
      some (match o with
            | .timeoutErr => "timeout"
            | .smtpExc m => "smtp_error: " ++ m
            | .otherExc m => "error: " ++ m
            | .response _ _ => "") := by
  cases o with
  | response c m => exact absurd rfl (h c m)
  | timeoutErr => exact ⟨rfl, rfl, rfl⟩
  | smtpExc m => exact ⟨rfl, rfl, rfl⟩
  | otherExc m => exact ⟨rfl, rfl, rfl⟩

/-- Witness for C5 (amended): the timeout outcome. -/
theorem C5_exception_conversion_witness :
    (smtp_verify "a@b.com" SMTPOutcome.timeoutErr).valid = none ∧
    (smtp_verify "a@b.com" SMTPOutcome.timeoutErr).error = some "timeout" :=
  ⟨(C5_exception_conversion "a@b.com" .timeoutErr (fun _ _ h => nomatch h)).1,
   (C5_exception_conversion "a@b.com" .timeoutErr (fun _ _ h => nomatch h)).2.2⟩

/-- C6: an address whose split at `'@'` has fewer than two parts (no
`'@'` present) or whose part after the first `'@'` is empty resolves to
an empty domain, so `verify_single` terminates immediately with
`valid = some false` and `error = "invalid_format"`, leaving the
engine state untouched and performing zero DNS queries and zero
probes. -/
theorem C6_invalid_format (cfg : EngineConfig) (env : Env) (st : EngineState) (email : String)
    (h : (splitAtSign email.data).length < 2 ∨ (splitAtSign email.data).getD 1 [] = []) :
    verify_single cfg env st email =
      ({ email := email, valid := some false, error := some "invalid_format" }, st, 0, 0) := by
  have hd : get_domain email = "" := by
    unfold get_domain
    rcases hm : splitAtSign email.data with _ | ⟨a, _ | ⟨b, t⟩⟩
    · rfl
    · rfl
    · rw [hm] at h
      rcases h with h | h
      · have hl : (a :: b :: t).length = t.length + 2 := by simp
        omega
      · have hb : (a :: b :: t).getD 1 [] = b := rfl
        rw [hb] at h
        subst h
        rfl
  simp [verify_single, hd]

/-- Witness for C6: the at-sign-free address "plainaddress". -/
theorem C6_invalid_format_witness :
    ((splitAtSign "plainaddress".data).length < 2 ∨
      (splitAtSign "plainaddress".data).getD 1 [] = []) ∧
    verify_single {} envTest {} "plainaddress" =
      ({ email := "plainaddress", valid := some false, error := some "invalid_format" },
        {}, 0, 0) :=
  ⟨Or.inl (by decide), C6_invalid_format {} envTest {} "plainaddress" (Or.inl (by decide))⟩

/-- C7 counterexample: when the MX query fails with a non-DNS
exception (the bare `except Exception` path), the failure is not
cached: the first resolve of "broken.example" returns no hosts and
leaves the cache empty, and a second resolve of the same domain 5
seconds later (well within the 3600-second TTL) performs another DNS
query, contradicting the claim that every resolution failure is cached
and short-circuits the second lookup. -/
theorem C7_counterexample :
    (MXResolver.resolve (fun _ => DNSAnswer.otherError) 0 {} "broken.example").1 = [] ∧
    (MXResolver.resolve (fun _ => DNSAnswer.otherError) 0 {} "broken.example").2.1.cache = [] ∧
    (MXResolver.resolve (fun _ => DNSAnswer.otherError) 5
        (MXResolver.resolve (fun _ => DNSAnswer.otherError) 0 {} "broken.example").2.1
        "broken.example").2.2 = 1 := by
  decide

/-- C7 (amended): when resolution fails with a DNS error (the
`aiodns.error.DNSError` path, covering domains with no mail-exchange
records), `verify_single` returns `valid = some false` with
`error = "no_mx_records"`, the failure is cached as an empty host list
at the resolution time in the same cache (hence with the same TTL as
successful resolutions), and a second resolve of that domain within
the TTL window returns the cached empty list with zero DNS queries.
Failures from non-DNS exceptions, by contrast, are not cached (see the
counterexample). -/
theorem C7_no_mx_cached (cfg : EngineConfig) (env : Env) (st : EngineState) (email : String)
    (now2 : Nat)
    (hdom : ¬ get_domain email = "")
    (hdns : env.dns (get_domain email) = DNSAnswer.dnsError)
    (hmiss : lookupA st.mx.cache (get_domain email) = none)
    (httl : now2 - env.now < st.mx.ttl) :
    (verify_single cfg env st email).1.valid = some false ∧
    (verify_single cfg env st email).1.error = some "no_mx_records" ∧
    lookupA (verify_single cfg env st email).2.1.mx.cache (get_domain email)
      = some ([], env.now) ∧
    MXResolver.resolve env.dns now2 (verify_single cfg env st email).2.1.mx
      (get_domain email) = ([], (verify_single cfg env st email).2.1.mx, 0) := by
  have hres : MXResolver.resolve env.dns env.now st.mx (get_domain email) =
      ([], { st.mx with cache := insertA st.mx.cache (get_domain email) ([], env.now) }, 1) := by
    unfold MXResolver.resolve resolveFresh
    rw [hmiss, hdns]
  have hvs : verify_single cfg env st email =
      ({ email := email, valid := some false, error := some "no_mx_records" },
        { st with mx := { st.mx with
            cache := insertA st.mx.cache (get_domain email) ([], env.now) } }, 1, 0) := by
    simp only [verify_single, hres, if_neg hdom]
  rw [hvs]
  refine ⟨rfl, rfl, lookupA_insertA_self _ _ _, ?_⟩
  unfold MXResolver.resolve
  rw [lookupA_insertA_self]
  simp only [if_pos httl]

/-- Witness for C7 (amended): a domain whose MX query reports a DNS
error, looked up again 10 seconds later. -/
theorem C7_no_mx_cached_witness :
    ¬ get_domain "x@nomx.example" = "" ∧
    (verify_single {} envTest {} "x@nomx.example").1.error = some "no_mx_records" ∧
    MXResolver.resolve envTest.dns 10 (verify_single {} envTest {} "x@nomx.example").2.1.mx
      (get_domain "x@nomx.example")
      = ([], (verify_single {} envTest {} "x@nomx.example").2.1.mx, 0) :=
  ⟨by decide,
   (C7_no_mx_cached {} envTest {} "x@nomx.example" 10 (by decide) rfl rfl (by decide)).2.1,
   (C7_no_mx_cached {} envTest {} "x@nomx.example" 10 (by decide) rfl rfl (by decide)).2.2.2⟩

/-- C8: the catch-all detector (a) returns any memoised answer with no
resolution and no probe, so the boolean is stable for the engine
instance's lifetime; (b) on a cache miss returns false when the domain
resolves to no mail hosts, and otherwise returns true exactly when the
single probe of the synthetic random address against the best-priority
host reports `valid = some true` (any other outcome, including every
error outcome, gives false), using exactly one probe; (c) after any
call the cache holds the returned boolean; and (d) whenever the
detector answers true, `verify_single` terminates with `valid = none`,
`catch_all = true`, `confidence = "low"`, and performs no probe beyond
those of the detector itself (its probe count equals the detector's). -/
theorem C8_catch_all (env : Env) (st : EngineState) (domain : String) :
    (∀ b, lookupA st.catch_all_cache domain = some b →
      is_catch_all env st domain = (b, st, 0, 0)) ∧
    (lookupA st.catch_all_cache domain = none →
      ((MXResolver.resolve env.dns env.now st.mx domain).1 = [] →
        (is_catch_all env st domain).1 = false) ∧
      (∀ h t, (MXResolver.resolve env.dns env.now st.mx domain).1 = h :: t →
        (is_catch_all env st domain).1 =
          ((smtp_verify (env.randEmail domain) (env.probe (env.randEmail domain) h 0)).valid
            == some true) ∧
        (is_catch_all env st domain).2.2.2 = 1)) ∧
    (lookupA (is_catch_all env st domain).2.1.catch_all_cache domain
      = some (is_catch_all env st domain).1) ∧
    (∀ cfg email, get_domain email = domain → ¬ domain = "" →
      ∀ h t st2 q, MXResolver.resolve env.dns env.now st.mx domain = (h :: t, st2, q) →
      (is_catch_all env { st with mx := st2 } domain).1 = true →
      verify_single cfg env st email =
        ({ email := email, valid := none, catch_all := true, confidence := "low",
           message := "Domain is catch-all, cannot verify individual addresses" },
         (is_catch_all env { st with mx := st2 } domain).2.1,
         q + (is_catch_all env { st with mx := st2 } domain).2.2.1,
         (is_catch_all env { st with mx := st2 } domain).2.2.2)) := by
  refine ⟨?_, ?_, ?_, ?_⟩
  · intro b hb
    simp only [is_catch_all, hb]
  · intro hnone
    refine ⟨?_, ?_⟩
    · intro hmx
      simp only [is_catch_all, hnone, hmx]
    · intro h t hmx
      simp only [is_catch_all, hnone, hmx]
      exact ⟨trivial, trivial⟩
  · rcases hc : lookupA st.catch_all_cache domain with _ | b
    · rcases hmx : (MXResolver.resolve env.dns env.now st.mx domain).1 with _ | ⟨h, t⟩ <;>
        simp only [is_catch_all, hc, hmx] <;>
        first
          | rfl
          | exact lookupA_insertA_self _ _ _
    · simp only [is_catch_all, hc]
  · intro cfg email hdom hne h t st2 q hres hca
    simp only [verify_single, hdom, if_neg hne, hres, hca, if_true]

/-- Witness for C8: the memoisation conjunct on a state whose cache
already knows "cached.example" is catch-all. -/
theorem C8_catch_all_witness :
    lookupA (EngineState.catch_all_cache
      { catch_all_cache := [("cached.example", true)] }) "cached.example" = some true ∧
    is_catch_all envTest { catch_all_cache := [("cached.example", true)] } "cached.example"
      = (true, { catch_all_cache := [("cached.example", true)] }, 0, 0) :=
  ⟨by decide,
   (C8_catch_all envTest { catch_all_cache := [("cached.example", true)] }
      "cached.example").1 true (by decide)⟩

/-- C1: when each address's verification produces a deterministic
per-address result `f e` carrying its own address (`(f e).email = e`,
as `verify_single` guarantees), `verify_batch` returns `emails.map f`
for every completion order of the spawned tasks: the output length
equals the input length, the `i`-th element is the result for the
`i`-th input address, and the output does not depend on the order in
which the concurrent verifications complete. -/
theorem C1_batch_order (emails : List String) (f : String → VerificationResult)
    (perm : List Nat)
    (hperm : perm.Perm (List.range emails.length))
    (hf : ∀ e, (f e).email = e) :
    verify_batch emails (fun j => f (emails.getD j "")) perm = emails.map f ∧
    (verify_batch emails (fun j => f (emails.getD j "")) perm).length = emails.length ∧
    (∀ i, i < emails.length →
      (verify_batch emails (fun j => f (emails.getD j "")) perm).getD i emptyResult =
        f (emails.getD i "")) := by
  have hmain : verify_batch emails (fun j => f (emails.getD j "")) perm = emails.map f := by
    by_cases hne : emails = []
    · subst hne
      simp [verify_batch]
    · unfold verify_batch
      rw [if_neg hne]
      apply List.map_congr_left
      intro e he
      have hco : ∀ r ∈ perm.map (fun j => f (emails.getD j "")), r = f r.email := by
        intro r hr
        obtain ⟨j, hj, rfl⟩ := List.mem_map.mp hr
        rw [hf]
      have hmem : e ∈ (perm.map (fun j => f (emails.getD j ""))).map (fun r => r.email) := by
        rw [List.map_map]
        have hcomp : ((fun r : VerificationResult => r.email) ∘
            fun j => f (emails.getD j "")) = fun j => emails.getD j "" := by
          funext j
          rw [Function.comp_apply, hf]
        rw [hcomp]
        have hp : (perm.map fun j => emails.getD j "").Perm
            ((List.range emails.length).map fun j => emails.getD j "") :=
          hperm.map _
        rw [hp.mem_iff, map_getD_range]
        exact he
      unfold dictOfResults
      rw [lookupA_dictOfResults_aux f _ [] e hco, if_pos hmem]
      rfl
  refine ⟨hmain, by rw [hmain, List.length_map], ?_⟩
  intro i hi
  rw [hmain, List.getD_eq_getElem _ _ (by rw [List.length_map]; exact hi),
    List.getElem_map, List.getD_eq_getElem emails "" hi]

/-- Witness for C1: two addresses completing in reversed order. -/
theorem C1_batch_order_witness :
    ([1, 0] : List Nat).Perm (List.range (["a@x.com", "b@y.com"] : List String).length) ∧
    verify_batch ["a@x.com", "b@y.com"]
      (fun j => ({ email := (["a@x.com", "b@y.com"] : List String).getD j "" } :
        VerificationResult)) [1, 0] =
      (["a@x.com", "b@y.com"] : List String).map
        (fun e => ({ email := e } : VerificationResult)) :=
  ⟨by decide,
   (C1_batch_order ["a@x.com", "b@y.com"]
      (fun e => ({ email := e } : VerificationResult)) [1, 0] (by decide)
      (fun _ => rfl)).1⟩

/-- C10: whatever results the individual tasks produce and in whatever
order they complete, `verify_batch` output positions holding equal
address strings receive the identical result value, because results
are remapped to input order through a dictionary keyed by address
string; and the output length equals the input length. -/
theorem C10_duplicate_addresses (emails : List String) (taskRes : Nat → VerificationResult)
    (perm : List Nat) (i k : Nat)
    (hi : i < emails.length) (hk : k < emails.length)
    (heq : emails.getD i "" = emails.getD k "") :
    (verify_batch emails taskRes perm).length = emails.length ∧
    (verify_batch emails taskRes perm).getD i emptyResult =
      (verify_batch emails taskRes perm).getD k emptyResult := by
  have hne : ¬ emails = [] := by
    intro hh
    subst hh
    simp at hi
  unfold verify_batch
  rw [if_neg hne]
  refine ⟨List.length_map _ _, ?_⟩
  have hgd : ∀ j, j < emails.length →
      (emails.map (fun e =>
        (lookupA (dictOfResults (perm.map taskRes)) e).getD emptyResult)).getD j emptyResult =
      (lookupA (dictOfResults (perm.map taskRes)) (emails.getD j "")).getD emptyResult := by
    intro j hj
    rw [List.getD_eq_getElem _ _ (by rw [List.length_map]; exact hj), List.getElem_map,
      List.getD_eq_getElem emails "" hj]
  rw [hgd i hi, hgd k hk, heq]

/-- Witness for C10: a duplicated address whose two tasks return
different result values (differing `attempts`), yet both output
positions agree. -/
theorem C10_duplicate_addresses_witness :
    (0 : Nat) < (["dup@x.com", "dup@x.com"] : List String).length ∧
    (verify_batch ["dup@x.com", "dup@x.com"]
        (fun j => { email := "dup@x.com", attempts := j }) [0, 1]).getD 0 emptyResult =
      (verify_batch ["dup@x.com", "dup@x.com"]
        (fun j => { email := "dup@x.com", attempts := j }) [0, 1]).getD 1 emptyResult :=
  ⟨by decide,
   (C10_duplicate_addresses ["dup@x.com", "dup@x.com"]
      (fun j => { email := "dup@x.com", attempts := j }) [0, 1] 0 1 (by decide) (by decide)
      (by decide)).2⟩

/-- C9: in every state reachable during a batch under the two-level
semaphore discipline, the number of tasks holding the global semaphore
(which bounds the number of addresses being verified concurrently)
never exceeds the configured `max_concurrent` (default 50), and for
every domain the number of in-flight tasks against that domain never
exceeds the configured `max_per_domain` (default 5) — both bounds
holding simultaneously in each reachable state. -/
theorem C9_concurrency_bounds (cfg : EngineConfig) (ds : List String) (ph : List Phase)
    (hreach : SemReachable cfg ds ph) (d : String) :
    globalCount ph ≤ cfg.max_concurrent ∧ domainCount d ds ph ≤ cfg.max_per_domain := by
  induction hreach with
  | init =>
    constructor
    · rw [globalCount, countIf_replicate_idle holdsGlobal _ rfl]
      omega
    · rw [domainCount_replicate_idle]
      omega
  | @step ph0 ph1 hreach hstep ih =>
    have hlen := semReachable_length cfg ds ph0 hreach
    obtain ⟨ihg, ihd⟩ := ih
    cases hstep with
    | acquireGlobal i hph hcap =>
      have hi : i < ph0.length := lt_length_of_getD ph0 i Phase.idle hph (by decide)
      have hid : i < ds.length := by omega
      have hg := countIf_set holdsGlobal ph0 i Phase.holdingGlobal hi
      rw [hph] at hg
      simp [holdsGlobal] at hg
      have hdm := domainCount_set d ds ph0 i Phase.holdingGlobal hid hi
      have hn1 : ¬(ds.getD i "" = d ∧ holdsDomain Phase.idle = true) := by
        intro hc
        simp [holdsDomain] at hc
      have hn2 : ¬(ds.getD i "" = d ∧ holdsDomain Phase.holdingGlobal = true) := by
        intro hc
        simp [holdsDomain] at hc
      rw [hph, if_neg hn1, if_neg hn2] at hdm
      simp only [globalCount] at ihg hcap ⊢
      exact ⟨by omega, by omega⟩
    | acquireDomain i hph hcap =>
      have hi : i < ph0.length := lt_length_of_getD ph0 i Phase.holdingGlobal hph (by decide)
      have hid : i < ds.length := by omega
      have hg := countIf_set holdsGlobal ph0 i Phase.holdingBoth hi
      rw [hph] at hg
      simp [holdsGlobal] at hg
      have hdm := domainCount_set d ds ph0 i Phase.holdingBoth hid hi
      rw [hph] at hdm
      simp only [globalCount] at ihg ⊢
      refine ⟨by omega, ?_⟩
      by_cases hdd : ds.getD i "" = d
      · rw [hdd] at hdm hcap
        simp [holdsDomain] at hdm
        omega
      · have hn1 : ¬(ds.getD i "" = d ∧ holdsDomain Phase.holdingGlobal = true) :=
          fun hc => hdd hc.1
        have hn2 : ¬(ds.getD i "" = d ∧ holdsDomain Phase.holdingBoth = true) :=
          fun hc => hdd hc.1
        rw [if_neg hn1, if_neg hn2] at hdm
        omega
    | releaseDomain i hph =>
      have hi : i < ph0.length := lt_length_of_getD ph0 i Phase.holdingBoth hph (by decide)
      have hid : i < ds.length := by omega
      have hg := countIf_set holdsGlobal ph0 i Phase.releasedDomain hi
      rw [hph] at hg
      simp [holdsGlobal] at hg
      have hdm := domainCount_set d ds ph0 i Phase.releasedDomain hid hi
      rw [hph] at hdm
      simp only [globalCount] at ihg ⊢
      refine ⟨by omega, ?_⟩
      by_cases hdd : ds.getD i "" = d
      · rw [hdd] at hdm
        simp [holdsDomain] at hdm
        omega
      · have hn1 : ¬(ds.getD i "" = d ∧ holdsDomain Phase.holdingBoth = true) :=
          fun hc => hdd hc.1
        have hn2 : ¬(ds.getD i "" = d ∧ holdsDomain Phase.releasedDomain = true) :=
          fun hc => hdd hc.1
        rw [if_neg hn1, if_neg hn2] at hdm
        omega
    | releaseGlobal i hph =>
      have hi : i < ph0.length := lt_length_of_getD ph0 i Phase.releasedDomain hph (by decide)
      have hid : i < ds.length := by omega
      have hg := countIf_set holdsGlobal ph0 i Phase.done hi
      rw [hph] at hg
      simp [holdsGlobal] at hg
      have hdm := domainCount_set d ds ph0 i Phase.done hid hi
      have hn1 : ¬(ds.getD i "" = d ∧ holdsDomain Phase.releasedDomain = true) := by
        intro hc
        simp [holdsDomain] at hc
      have hn2 : ¬(ds.getD i "" = d ∧ holdsDomain Phase.done = true) := by
        intro hc
        simp [holdsDomain] at hc
      rw [hph, if_neg hn1, if_neg hn2] at hdm
      simp only [globalCount] at ihg ⊢
      exact ⟨by omega, by omega⟩

/-- Witness for C9: two tasks over distinct domains, after the first
task has acquired the global and its domain semaphore, with the
default limits (50 global, 5 per domain). -/
theorem C9_concurrency_bounds_witness :
    globalCount ((List.replicate 2 Phase.idle).set 0 Phase.holdingGlobal
        |>.set 0 Phase.holdingBoth) ≤ EngineConfig.max_concurrent {} ∧
    domainCount "a.com" ["a.com", "b.com"]
      ((List.replicate 2 Phase.idle).set 0 Phase.holdingGlobal
        |>.set 0 Phase.holdingBoth) ≤ EngineConfig.max_per_domain {} :=
  C9_concurrency_bounds {} ["a.com", "b.com"] _
    (SemReachable.step
      (SemReachable.step SemReachable.init
        (SemStep.acquireGlobal 0 (by decide) (by decide)))
      (SemStep.acquireDomain 0 (by decide) (by decide)))
    "a.com"

end Claims

end AsyncVerifier
